import Mathlib

/-!
Verification of the Web-Display-Screen digital-signage application.

The definitions below are a shallow embedding of the repository's code:
the Supabase-backed stores become Lean lists, the React component state
becomes explicit record types, and each handler (fetch, cycle effect,
drag reorder, order save, delete, auth setup, the SQL RPC functions)
becomes a pure Lean function mirroring the source line by line.
-/

/-- Transition kind of a display item (column transition_type,
values fade / slide / none in src/src/types.ts). -/
inductive Transition where
  | fade
  | slide
  | none
deriving DecidableEq, Repr

/-- A row of the announcements table (src/src/types.ts, Announcement).
display_duration is nullable in the database (integer default 10), so it
is an Option here; created_at is modelled as a numeric timestamp. -/
structure Announcement where
  id : Nat
  image_url : String
  title : String
  display_duration : Option Nat
  transition_type : Transition
  active : Bool
  order_index : Int
  created_at : Nat
deriving DecidableEq, Repr

/-- The singleton settings row (table settings, id fixed to 1).
admin_password is nullable: null means setup mode. -/
structure Settings where
  refresh_interval : Int
  default_duration : Nat
  security_enabled : Bool
  admin_password : Option String
deriving DecidableEq, Repr

/-- Insertion of an element into a list that is sorted by the boolean
comparator le (le a b means a may be placed before b). -/
def insertLe (le : α → α → Bool) (a : α) : List α → List α
  | [] => [a]
  | b :: l => if le a b then a :: b :: l else b :: insertLe le a l

/-- Insertion sort by a boolean comparator; models the ORDER BY of a
Supabase select. -/
def sortByLe (le : α → α → Bool) : List α → List α
  | [] => []
  | a :: l => insertLe le a (sortByLe le l)

/-- Comparator of the display board query: created_at descending only
(.order created_at ascending false in Announcements.tsx). -/
def displayOrderLe (a b : Announcement) : Bool :=
  decide (b.created_at ≤ a.created_at)

/-- Comparator of the admin query in DisplaySettings.tsx: order_index
ascending, then created_at descending. -/
def adminOrderLe (a b : Announcement) : Bool :=
  if a.order_index = b.order_index then decide (b.created_at ≤ a.created_at)
  else decide (a.order_index < b.order_index)

/-- JavaScript x || d on a nullable number: null, undefined and 0 are
falsy and give the default. -/
def jsOrDefault (v : Option Nat) (d : Nat) : Nat :=
  match v with
  | Option.none => d
  | Option.some n => if n = 0 then d else n

namespace Announcements

/-- The display board fetch (Announcements.tsx, fetchAnnouncements):
select * from announcements where active = true
order by created_at descending.  Note: the query does NOT order by
order_index. -/
def fetchAnnouncements (store : List Announcement) : List Announcement :=
  sortByLe displayOrderLe (store.filter (fun a => a.active))

/-- The delay the cycle effect computes for the current item:
(announcements[currentIndex]?.display_duration || 10), in seconds.
Out-of-range index gives undefined, hence the default 10. -/
def cycleTimerDuration (l : List Announcement) (i : Nat) : Nat :=
  jsOrDefault ((l.get? i).bind (fun a => a.display_duration)) 10

/-- The timeout the cycle effect arms, in milliseconds; the effect
returns early (no timer) when announcements.length <= 1. -/
def armTimer (l : List Announcement) (i : Nat) : Option Nat :=
  if l.length ≤ 1 then Option.none
  else Option.some (cycleTimerDuration l i * 1000)

/-- The state update of one advance-timer firing:
setCurrentIndex (prev => (prev + 1) % announcements.length), guarded by
the early return when announcements.length <= 1. -/
def cycleAdvance (l : List Announcement) (i : Nat) : Nat :=
  if l.length ≤ 1 then i else (i + 1) % l.length

/-- Component state of the display cycler. -/
structure CyclerState where
  announcements : List Announcement
  currentIndex : Nat
deriving DecidableEq, Repr

/-- A completed re-fetch: setAnnouncements replaces the list; the code
leaves currentIndex untouched. -/
def applyFetch (st : CyclerState) (store : List Announcement) : CyclerState :=
  { st with announcements := fetchAnnouncements store }

/-- What the component renders after loading: an explicit empty state
when announcements.length = 0, else the stage keyed by currentIndex. -/
inductive ScreenOutput where
  | emptyState
  | stage (items : List Announcement) (current : Nat)
deriving DecidableEq, Repr

/-- The render branch of Announcements.tsx after loading finished. -/
def render (st : CyclerState) : ScreenOutput :=
  if st.announcements.length = 0 then ScreenOutput.emptyState
  else ScreenOutput.stage st.announcements st.currentIndex

end Announcements

section CycleProofs

open Announcements

/-- Pure arithmetic core of the cycle: iterating the successor modulo n. -/
theorem iterate_succ_mod (n : Nat) (hn : 0 < n) :
    ∀ (k i : Nat), i < n → (fun j => (j + 1) % n)^[k] i = (i + k) % n := by
  intro k
  induction k with
  | zero =>
      intro i hi
      simpa using (Nat.mod_eq_of_lt hi).symm
  | succ k ih =>
      intro i hi
      rw [Function.iterate_succ_apply]
      rw [ih ((i + 1) % n) (Nat.mod_lt _ hn)]
      rw [Nat.mod_add_mod]
      -- (i + 1 + k) % n = (i + (k + 1)) % n
      congr 1
      omega

end CycleProofs

/-- Item A of the spec's end-to-end example: order 1, active, 5 s, oldest. -/
def exA : Announcement :=
  { id := 1, image_url := "host/a.png", title := "A",
    display_duration := Option.some 5, transition_type := Transition.fade,
    active := true, order_index := 1, created_at := 100 }

/-- Item B of the spec's end-to-end example: order 2, active, 10 s, newer. -/
def exB : Announcement :=
  { id := 2, image_url := "host/b.png", title := "B",
    display_duration := Option.some 10, transition_type := Transition.fade,
    active := true, order_index := 2, created_at := 200 }

/-- Item C of the spec's end-to-end example: order 3, inactive, newest. -/
def exC : Announcement :=
  { id := 3, image_url := "host/c.png", title := "C",
    display_duration := Option.none, transition_type := Transition.slide,
    active := false, order_index := 3, created_at := 300 }

/-- The stored table of the end-to-end example. -/
def exStore : List Announcement := [exA, exB, exC]

/-- C1: the claim says the Display Cycler fetch orders by orderIndex
ascending (createdAt descending as tie-break) and on the example store
yields [A, B].  Evaluating the display query of Announcements.tsx at
that store: it filters active = true but orders by created_at
descending only, so it returns [B, A] — order_index never enters the
query, contradicting the claim (and the drag-reorder feature the admin
panel persists order_index for). -/
theorem C1_fetch_at_failing_input :
    Announcements.fetchAnnouncements exStore = [exB, exA] ∧
    ¬ Announcements.fetchAnnouncements exStore = [exA, exB] := by
  constructor
  · decide
  · decide

/-- C3: for an active list of length at least 2 and a valid current
index i, one advance-timer firing takes i to (i + 1) mod N, the armed
delay is the current item's duration (default 10) in milliseconds, and
after exactly N firings the index returns to its starting value. -/
theorem C3_cycle_mod_and_period (l : List Announcement) (i : Nat)
    (h2 : 2 ≤ l.length) (hi : i < l.length) :
    Announcements.cycleAdvance l i = (i + 1) % l.length ∧
    (∀ a, l.get? i = Option.some a →
      Announcements.armTimer l i
        = Option.some (jsOrDefault a.display_duration 10 * 1000)) ∧
    (Announcements.cycleAdvance l)^[l.length] i = i := by
  have hguard : ¬ l.length ≤ 1 := by omega
  refine ⟨?_, ?_, ?_⟩
  · simp [Announcements.cycleAdvance, hguard]
  · intro a ha
    rw [List.get?_eq_getElem?] at ha
    simp [Announcements.armTimer, hguard, Announcements.cycleTimerDuration, ha]
  · have hfun : Announcements.cycleAdvance l = fun j => (j + 1) % l.length := by
      funext j
      simp [Announcements.cycleAdvance, hguard]
    rw [hfun, iterate_succ_mod l.length (by omega) l.length i hi]
    rw [Nat.add_mod_right]
    exact Nat.mod_eq_of_lt hi

/-- Witness for C3 on the fetched two-item example list, starting at 0. -/
theorem C3_cycle_mod_and_period_witness :
    Announcements.cycleAdvance [exB, exA] 0 = (0 + 1) % ([exB, exA] : List Announcement).length ∧
    (∀ a, ([exB, exA] : List Announcement).get? 0 = Option.some a →
      Announcements.armTimer [exB, exA] 0
        = Option.some (jsOrDefault a.display_duration 10 * 1000)) ∧
    (Announcements.cycleAdvance [exB, exA])^[([exB, exA] : List Announcement).length] 0 = 0 :=
  C3_cycle_mod_and_period [exB, exA] 0 (by decide) (by decide)

/-- C9: with zero active items the component renders the explicit empty
state and the cycle effect arms no timer; with exactly one active item no
timer is armed and a firing of the advance update leaves the index
unchanged. -/
theorem C9_zero_and_one_item (l : List Announcement) (i : Nat) :
    (l.length = 0 →
      Announcements.render ⟨l, i⟩ = Announcements.ScreenOutput.emptyState ∧
      Announcements.armTimer l i = Option.none) ∧
    (l.length = 1 →
      Announcements.armTimer l i = Option.none ∧
      Announcements.cycleAdvance l i = i) := by
  constructor
  · intro h0
    constructor
    · simp [Announcements.render, h0]
    · simp [Announcements.armTimer, h0]
  · intro h1
    constructor
    · simp [Announcements.armTimer, h1]
    · simp [Announcements.cycleAdvance, h1]

/-- Witness for C9 at the empty list and at a one-item list. -/
theorem C9_zero_and_one_item_witness :
    (Announcements.render ⟨[], 4⟩ = Announcements.ScreenOutput.emptyState ∧
      Announcements.armTimer [] 4 = Option.none) ∧
    (Announcements.armTimer [exA] 0 = Option.none ∧
      Announcements.cycleAdvance [exA] 0 = 0) :=
  ⟨(C9_zero_and_one_item [] 4).1 rfl, (C9_zero_and_one_item [exA] 0).2 rfl⟩

/-- A fourth item so the counterexample state can have current index 2. -/
def exD : Announcement :=
  { id := 4, image_url := "host/d.png", title := "D",
    display_duration := Option.some 7, transition_type := Transition.none,
    active := true, order_index := 4, created_at := 400 }

/-- Cycler state before the shrinking re-fetch: three active items were
shown and the current index is 2. -/
def exSt8 : Announcements.CyclerState :=
  { announcements := [exD, exB, exA], currentIndex := 2 }

/-- The store at re-fetch time: only one item is still active. -/
def exNewStore : List Announcement := [exA, exC]

/-- C8 counterexample: a re-fetch that shrinks the active list to one
item leaves the current index at 2, which is not a valid position of the
new list — the code never clamps the index on fetch. -/
theorem C8_counterexample :
    ¬ ((Announcements.applyFetch exSt8 exNewStore).currentIndex
        < (Announcements.applyFetch exSt8 exNewStore).announcements.length) := by
  decide

/-- C8 amended: a re-fetch leaves the current index unchanged (it is not
clamped and may be out of range of the new list), but the cycle cannot
crash: the duration lookup falls back to the default 10 whenever the
index is out of range, and as soon as the new list has length at least 2
the next advance-timer firing lands the index back inside the range via
(i + 1) mod N. -/
theorem C8_fetch_keeps_index_safely (st : Announcements.CyclerState)
    (store : List Announcement) :
    (Announcements.applyFetch st store).currentIndex = st.currentIndex ∧
    (2 ≤ (Announcements.fetchAnnouncements store).length → ∀ i : Nat,
      Announcements.cycleAdvance (Announcements.fetchAnnouncements store) i
        < (Announcements.fetchAnnouncements store).length) ∧
    (∀ i : Nat, (Announcements.fetchAnnouncements store).length ≤ i →
      Announcements.cycleTimerDuration (Announcements.fetchAnnouncements store) i = 10) := by
  refine ⟨rfl, ?_, ?_⟩
  · intro h2 i
    have hguard : ¬ (Announcements.fetchAnnouncements store).length ≤ 1 := by omega
    simp only [Announcements.cycleAdvance, if_neg hguard]
    exact Nat.mod_lt _ (by omega)
  · intro i hle
    have hnone : (Announcements.fetchAnnouncements store).get? i = Option.none :=
      List.get?_eq_none.mpr hle
    rw [List.get?_eq_getElem?] at hnone
    simp [Announcements.cycleTimerDuration, hnone, jsOrDefault]

/-- Witness for C8 amended: the shrinking re-fetch of the counterexample
state keeps index 2, the out-of-range duration is 10, and on a two-item
fetch every advance lands in range. -/
theorem C8_fetch_keeps_index_safely_witness :
    (Announcements.applyFetch exSt8 exNewStore).currentIndex = exSt8.currentIndex ∧
    Announcements.cycleAdvance (Announcements.fetchAnnouncements exStore) 5
      < (Announcements.fetchAnnouncements exStore).length ∧
    Announcements.cycleTimerDuration (Announcements.fetchAnnouncements exNewStore) 2 = 10 :=
  ⟨(C8_fetch_keeps_index_safely exSt8 exNewStore).1,
   (C8_fetch_keeps_index_safely exSt8 exStore).2.1 (by decide) 5,
   (C8_fetch_keeps_index_safely exSt8 exNewStore).2.2 2 (by decide)⟩

namespace DisplaySettings

/-- Component state of the admin list editor relevant to ordering:
the fetched list in its current display order and the dirty flag. -/
structure AdminState where
  announcements : List Announcement
  hasOrderChanges : Bool
deriving DecidableEq, Repr

/-- arrayMove of dnd-kit: splice the element out at position i and splice
it back in at position j (a JavaScript splice clamps an insertion
position past the end to an append).  The component only reaches it with
indices produced by findIndex on ids that are present in the list. -/
def arrayMove (l : List α) (i j : Nat) : List α :=
  match l.get? i with
  | Option.none => l
  | Option.some a =>
      (l.eraseIdx i).insertIdx (min j (l.eraseIdx i).length) a

/-- handleDragEnd in DisplaySettings.tsx: when the drop target differs
from the dragged item, move the dragged item to the target's position
and set the dirty flag; otherwise nothing happens. -/
def handleDragEnd (activeId overId : Nat) (st : AdminState) : AdminState :=
  if activeId ≠ overId then
    { announcements :=
        arrayMove st.announcements
          (st.announcements.findIdx (fun a => a.id == activeId))
          (st.announcements.findIdx (fun a => a.id == overId)),
      hasOrderChanges := true }
  else st

/-- Direction argument of moveAnnouncement. -/
inductive MoveDir where
  | up
  | down
deriving DecidableEq, Repr

/-- Swap of two positions of a list (the destructuring swap assignment);
identity when a position is out of range, which the UI guards exclude. -/
def swapAt (l : List α) (i j : Nat) : List α :=
  match l.get? i, l.get? j with
  | Option.some a, Option.some b => (l.set i b).set j a
  | _, _ => l

/-- moveAnnouncement in DisplaySettings.tsx: exchange the item with its
immediate neighbor, guarded at the first and last position; sets the
dirty flag. -/
def moveAnnouncement (index : Nat) (dir : MoveDir) (st : AdminState) : AdminState :=
  if dir = MoveDir.up ∧ index = 0 then st
  else if dir = MoveDir.down ∧ index = st.announcements.length - 1 then st
  else
    let targetIndex :=
      match dir with
      | MoveDir.up => index - 1
      | MoveDir.down => index + 1
    { announcements := swapAt st.announcements index targetIndex,
      hasOrderChanges := true }

/-- One reorder interaction: a drag to an arbitrary position or an
up/down neighbor swap. -/
inductive ReorderOp where
  | drag (activeId overId : Nat)
  | move (index : Nat) (dir : MoveDir)
deriving DecidableEq, Repr

/-- Apply one reorder interaction to the editor state. -/
def applyOp (st : AdminState) (op : ReorderOp) : AdminState :=
  match op with
  | ReorderOp.drag a o => handleDragEnd a o st
  | ReorderOp.move i d => moveAnnouncement i d st

/-- Apply a finite sequence of reorder interactions. -/
def applyOps (st : AdminState) (ops : List ReorderOp) : AdminState :=
  ops.foldl applyOp st

/-- The batch saveOrder builds: every item's full record with
order_index := idx + 1 (announcements.map of item and idx). -/
def saveOrderUpdates (l : List Announcement) : List Announcement :=
  l.mapIdx (fun idx item => { item with order_index := (idx : Int) + 1 })

/-- Upsert of one full record keyed by id (onConflict id): replace the
matching row, or insert the record when no row has its id. -/
def upsertOne (store : List Announcement) (u : Announcement) : List Announcement :=
  if store.any (fun a => a.id == u.id) then
    store.map (fun a => if a.id == u.id then u else a)
  else store ++ [u]

/-- The multi-row batch upsert. -/
def upsertItems (store : List Announcement) (us : List Announcement) : List Announcement :=
  us.foldl upsertOne store

/-- The admin fetch in DisplaySettings.tsx: all rows, active and
inactive, ordered by order_index ascending then created_at descending. -/
def fetchAnnouncements (store : List Announcement) : List Announcement :=
  sortByLe adminOrderLe store

/-- saveOrder in DisplaySettings.tsx with the upsert outcome explicit:
a failed upsert throws into the catch block and nothing else runs — the
dirty flag and the local list are kept and the store is untouched; on
success the dirty flag is cleared and the canonical state re-fetched. -/
def saveOrder (upsertFails : Bool) (st : AdminState) (store : List Announcement) :
    AdminState × List Announcement :=
  let updates := saveOrderUpdates st.announcements
  if upsertFails then (st, store)
  else
    let store2 := upsertItems store updates
    ({ announcements := fetchAnnouncements store2, hasOrderChanges := false },
      store2)

/-- The two backend stores the delete handler touches. -/
structure Stores where
  items : List Announcement
  objects : List String
deriving DecidableEq, Repr

/-- deleteAnnouncement in DisplaySettings.tsx: first a best-effort
removal of the backing object (the file name is the last URL segment; a
storage error is only logged), then the record delete; a database error
is caught and leaves the record in place. -/
def deleteAnnouncement (storageFails dbFails : Bool) (st : Stores)
    (id_ : Nat) (imageUrl : String) : Stores :=
  let fileName := (imageUrl.splitOn "/").getLastD ""
  let objects2 :=
    if imageUrl ≠ "" ∧ fileName ≠ "" ∧ storageFails = false then
      st.objects.filter (fun o => o ≠ fileName)
    else st.objects
  if dbFails then { st with objects := objects2 }
  else { items := st.items.filter (fun a => a.id ≠ id_), objects := objects2 }

end DisplaySettings

namespace DisplaySettings

/-- arrayMove never changes the length of the list. -/
theorem length_arrayMove (l : List α) (i j : Nat) :
    (arrayMove l i j).length = l.length := by
  cases h : l[i]? with
  | none => simp [arrayMove, h]
  | some a =>
      have hi : i < l.length := by
        by_contra hno
        rw [List.getElem?_eq_none (by omega : l.length ≤ i)] at h
        exact Option.noConfusion h
      have he : (l.eraseIdx i).length + 1 = l.length :=
        List.length_eraseIdx_add_one hi
      have hins :
          ((l.eraseIdx i).insertIdx (min j (l.eraseIdx i).length) a).length
            = (l.eraseIdx i).length + 1 :=
        List.length_insertIdx _ _ (Nat.min_le_right _ _)
      simp only [arrayMove, List.get?_eq_getElem?, h]
      omega

/-- Swapping two positions never changes the length of the list. -/
theorem length_swapAt (l : List α) (i j : Nat) :
    (swapAt l i j).length = l.length := by
  cases h1 : l[i]? with
  | none => simp [swapAt, h1]
  | some a =>
      cases h2 : l[j]? with
      | none => simp [swapAt, h1, h2]
      | some b => simp [swapAt, h1, h2]

/-- Each reorder interaction preserves the number of items. -/
theorem length_applyOp (st : AdminState) (op : ReorderOp) :
    (applyOp st op).announcements.length = st.announcements.length := by
  cases op with
  | drag a o =>
      unfold applyOp handleDragEnd
      by_cases h : a ≠ o
      · simp [h, length_arrayMove]
      · simp [h]
  | move i d =>
      unfold applyOp moveAnnouncement
      by_cases h1 : d = MoveDir.up ∧ i = 0
      · simp [h1]
      · by_cases h2 : d = MoveDir.down ∧ i = st.announcements.length - 1
        · simp [h1, h2]
        · simp [h1, h2, length_swapAt]

/-- A whole sequence of reorder interactions preserves the item count. -/
theorem length_applyOps (ops : List ReorderOp) : ∀ st : AdminState,
    (applyOps st ops).announcements.length = st.announcements.length := by
  induction ops with
  | nil =>
      intro st
      rfl
  | cons op ops ih =>
      intro st
      unfold applyOps at ih ⊢
      rw [List.foldl_cons, ih (applyOp st op), length_applyOp]

/-- The order_index column of the written batch reads exactly 1..N. -/
theorem saveOrderUpdates_map_order (l : List Announcement) :
    (saveOrderUpdates l).map (fun a => a.order_index)
      = (List.range l.length).map (fun k : Nat => (k : Int) + 1) := by
  refine List.ext_getElem ?_ ?_
  · simp [saveOrderUpdates]
  · intro n h1 h2
    have hn : n < l.length := by simpa [saveOrderUpdates] using h1
    have hkey := List.get_mapIdx l
      (fun idx item => { item with order_index := (idx : Int) + 1 }) n hn
    simp only [List.get_eq_getElem] at hkey
    simp only [List.getElem_map, List.getElem_range, saveOrderUpdates, hkey]

/-- The ids of the written batch are the final visual order. -/
theorem saveOrderUpdates_map_id (l : List Announcement) :
    (saveOrderUpdates l).map (fun a => a.id) = l.map (fun a => a.id) := by
  refine List.ext_getElem ?_ ?_
  · simp [saveOrderUpdates]
  · intro n h1 h2
    have hn : n < l.length := by simpa [saveOrderUpdates] using h1
    have hkey := List.get_mapIdx l
      (fun idx item => { item with order_index := (idx : Int) + 1 }) n hn
    simp only [List.get_eq_getElem] at hkey
    simp only [List.getElem_map, saveOrderUpdates, hkey]

end DisplaySettings

/-- C2: after any finite sequence of reorder interactions (drag to an
arbitrary position, or an up/down neighbor swap), the batch that
saveOrder writes carries order_index = position + 1 over the final local
order: read off in list order the written order_index column is exactly
1..N (so no gaps and no duplicates), the written records follow the
final visual order id by id, and the interactions preserved N. -/
theorem C2_save_order_dense (st : DisplaySettings.AdminState)
    (ops : List DisplaySettings.ReorderOp) :
    ((DisplaySettings.saveOrderUpdates
        (DisplaySettings.applyOps st ops).announcements).map
          (fun a => a.order_index)
      = (List.range (DisplaySettings.applyOps st ops).announcements.length).map
          (fun k : Nat => (k : Int) + 1)) ∧
    ((DisplaySettings.saveOrderUpdates
        (DisplaySettings.applyOps st ops).announcements).map (fun a => a.id)
      = (DisplaySettings.applyOps st ops).announcements.map (fun a => a.id)) ∧
    (DisplaySettings.applyOps st ops).announcements.length
      = st.announcements.length := by
  refine ⟨DisplaySettings.saveOrderUpdates_map_order _,
    DisplaySettings.saveOrderUpdates_map_id _,
    DisplaySettings.length_applyOps ops st⟩

/-- C6: a failed batch upsert aborts the save with everything as it was —
the dirty flag is retained, the local unsaved order is kept and nothing
is re-fetched, the store untouched; a successful save clears the dirty
flag and replaces the local list with the canonical re-fetch of the
updated store. -/
theorem C6_save_failure_keeps_dirty (st : DisplaySettings.AdminState)
    (store : List Announcement) :
    DisplaySettings.saveOrder true st store = (st, store) ∧
    (DisplaySettings.saveOrder false st store).1.hasOrderChanges = false ∧
    (DisplaySettings.saveOrder false st store).1.announcements
      = DisplaySettings.fetchAnnouncements
          (DisplaySettings.saveOrder false st store).2 :=
  ⟨rfl, rfl, rfl⟩

/-- Membership is preserved by sorted insertion. -/
theorem mem_insertLe (le : α → α → Bool) (a b : α) (l : List α) :
    a ∈ insertLe le b l ↔ a = b ∨ a ∈ l := by
  induction l with
  | nil => simp [insertLe]
  | cons c l ih =>
      by_cases h : le b c
      · simp [insertLe, h]
      · simp only [insertLe, if_neg h, List.mem_cons, ih]
        tauto

/-- Sorting is a permutation at the level of membership. -/
theorem mem_sortByLe (le : α → α → Bool) (a : α) (l : List α) :
    a ∈ sortByLe le l ↔ a ∈ l := by
  induction l with
  | nil => simp [sortByLe]
  | cons b l ih => simp [sortByLe, mem_insertLe, ih]

/-- C7: delete removes the backing media first, best-effort; whether or
not the media removal failed, once the record delete completes the item
is gone from the items table and no longer appears in a subsequent
display fetch. -/
theorem C7_delete_tolerates_media_failure (storageFails : Bool)
    (st : DisplaySettings.Stores) (id_ : Nat) (imageUrl : String) :
    ((DisplaySettings.deleteAnnouncement storageFails false st id_ imageUrl).items
      = st.items.filter (fun a => a.id ≠ id_)) ∧
    (∀ a ∈ (DisplaySettings.deleteAnnouncement storageFails false st id_ imageUrl).items,
      a.id ≠ id_) ∧
    (∀ a ∈ Announcements.fetchAnnouncements
        (DisplaySettings.deleteAnnouncement storageFails false st id_ imageUrl).items,
      a.id ≠ id_) := by
  refine ⟨rfl, ?_, ?_⟩
  · intro a ha
    have := List.mem_filter.mp ha
    simpa using this.2
  · intro a ha
    rw [Announcements.fetchAnnouncements, mem_sortByLe] at ha
    have ha2 := (List.mem_filter.mp ha).1
    have := List.mem_filter.mp ha2
    simpa using this.2

/-- The stores of the C7 witness: three records, two stored objects. -/
def exStores : DisplaySettings.Stores :=
  { items := [exA, exB, exC], objects := ["a.png", "b.png"] }

/-- Witness for C7: deleting item 1 while the storage removal fails
still filters the record out, and item B (which survives) is not id 1. -/
theorem C7_delete_tolerates_media_failure_witness :
    ((DisplaySettings.deleteAnnouncement true false exStores 1 exA.image_url).items
      = exStores.items.filter (fun a => a.id ≠ 1)) ∧
    exB.id ≠ 1 :=
  ⟨(C7_delete_tolerates_media_failure true exStores 1 exA.image_url).1,
   (C7_delete_tolerates_media_failure true exStores 1 exA.image_url).2.1 exB (by decide)⟩

namespace AuthGate

/-- The gate's component state (AuthGate component). -/
structure GateState where
  isLocked : Bool
  isAuthenticated : Bool
  isSetupMode : Bool
deriving DecidableEq, Repr

/-- handleSetup of the AuthGate component: an empty password or a
non-matching confirmation is rejected with a toast and nothing else
happens (no store write, no state change); a matching non-empty pair is
written to the settings row as admin_password, the local authenticated
marker is set, and the gate unlocks.  The result is the settings row,
the local marker, and the gate state. -/
def handleSetup (password confirmPassword : String) (settings : Settings)
    (localAuth : Bool) (gate : GateState) : Settings × Bool × GateState :=
  if password = "" ∨ password ≠ confirmPassword then
    (settings, localAuth, gate)
  else
    ({ settings with admin_password := Option.some password },
      true,
      { gate with isLocked := false, isAuthenticated := true })

end AuthGate

/-- C4: in the Auth Gate setup flow — security enabled and no stored
password — submitting an empty or non-matching pair changes nothing (no
store write); submitting a matching non-empty pair stores it as the new
password, leaves securityEnabled true (the flow only runs when it
already is, so the set is the idempotent case), sets the local
authenticated marker and unlocks the gate. -/
theorem C4_setup_flow (pw confirm : String) (s : Settings) (la : Bool)
    (g : AuthGate.GateState)
    (hsec : s.security_enabled = true)
    (_hnopw : s.admin_password = Option.none) :
    ((pw = "" ∨ pw ≠ confirm) →
      AuthGate.handleSetup pw confirm s la g = (s, la, g)) ∧
    (pw ≠ "" → pw = confirm →
      (AuthGate.handleSetup pw confirm s la g).1.admin_password = Option.some pw ∧
      (AuthGate.handleSetup pw confirm s la g).1.security_enabled = true ∧
      (AuthGate.handleSetup pw confirm s la g).2.1 = true ∧
      (AuthGate.handleSetup pw confirm s la g).2.2.isLocked = false ∧
      (AuthGate.handleSetup pw confirm s la g).2.2.isAuthenticated = true) := by
  constructor
  · intro h
    unfold AuthGate.handleSetup
    rw [if_pos h]
  · intro h1 h2
    have hcond : ¬ (pw = "" ∨ pw ≠ confirm) := by
      push_neg
      exact ⟨h1, h2⟩
    unfold AuthGate.handleSetup
    rw [if_neg hcond]
    exact ⟨rfl, hsec, rfl, rfl, rfl⟩

/-- The settings row at the start of the setup flow. -/
def exSetupSettings : Settings :=
  { refresh_interval := 5, default_duration := 10,
    security_enabled := true, admin_password := Option.none }

/-- The gate state of the setup screen. -/
def exSetupGate : AuthGate.GateState :=
  { isLocked := true, isAuthenticated := false, isSetupMode := true }

/-- Witness for C4: a non-matching pair is a no-op, and the matching
pair pw/pw stores the password, keeps security on and unlocks. -/
theorem C4_setup_flow_witness :
    (AuthGate.handleSetup "x" "y" exSetupSettings false exSetupGate
      = (exSetupSettings, false, exSetupGate)) ∧
    ((AuthGate.handleSetup "pw" "pw" exSetupSettings false exSetupGate).1.admin_password
        = Option.some "pw" ∧
      (AuthGate.handleSetup "pw" "pw" exSetupSettings false exSetupGate).1.security_enabled
        = true ∧
      (AuthGate.handleSetup "pw" "pw" exSetupSettings false exSetupGate).2.1 = true ∧
      (AuthGate.handleSetup "pw" "pw" exSetupSettings false exSetupGate).2.2.isLocked
        = false ∧
      (AuthGate.handleSetup "pw" "pw" exSetupSettings false exSetupGate).2.2.isAuthenticated
        = true) :=
  ⟨(C4_setup_flow "x" "y" exSetupSettings false exSetupGate rfl rfl).1
      (Or.inr (by decide)),
   (C4_setup_flow "pw" "pw" exSetupSettings false exSetupGate rfl rfl).2
      (by decide) rfl⟩

/-- The RPC is_password_set of schema part_000: selects
(admin_password is not null and admin_password <> '') into has_pass from
the singleton row — SQL three-valued logic makes that false (not null)
when the password is null — and returns coalesce(has_pass, false), so a
missing settings row also yields false rather than an error. -/
def is_password_set (row : Option Settings) : Bool :=
  let has_pass : Option Bool :=
    row.map (fun s =>
      match s.admin_password with
      | Option.none => false
      | Option.some p => p != "")
  has_pass.getD false

/-- The RPC change_admin_password of schema part_000: selects
(admin_password = current_password) into is_valid from the singleton row
(null when the row is missing or the stored password is null); if
is_valid is not true it returns false without touching the row, else it
updates admin_password to the new value and returns true.  It never
throws on a wrong password: every path returns a boolean. -/
def change_admin_password (row : Option Settings)
    (current_password new_password : String) : Option Settings × Bool :=
  let is_valid : Option Bool :=
    row.bind (fun s => s.admin_password.map (fun p => p == current_password))
  match is_valid with
  | Option.some true =>
      (row.map (fun s => { s with admin_password := Option.some new_password }),
        true)
  | _ => (row, false)

/-- C5: change_admin_password with a wrong current password — including
the cases of a null stored password and of a missing settings row —
returns false and leaves the row unchanged (and, being total, never
throws); with the correct current password it rewrites admin_password to
the new value and returns true. -/
theorem C5_change_password (row : Option Settings) (current newPw : String) :
    (row.bind (fun s => s.admin_password) ≠ Option.some current →
      change_admin_password row current newPw = (row, false)) ∧
    (∀ s : Settings, row = Option.some s →
      s.admin_password = Option.some current →
      change_admin_password row current newPw
        = (Option.some { s with admin_password := Option.some newPw }, true)) := by
  constructor
  · intro h
    cases row with
    | none => rfl
    | some s =>
        cases hp : s.admin_password with
        | none => simp [change_admin_password, hp]
        | some p =>
            have hne : ¬ p = current := by
              intro he
              exact h (by simp [hp, he])
            simp [change_admin_password, hp, hne]
  · intro s hrow hpass
    subst hrow
    simp [change_admin_password, hpass]

/-- A settings row with a stored password, for the C5 witness. -/
def exRowWithPassword : Settings :=
  { refresh_interval := 5, default_duration := 10,
    security_enabled := true, admin_password := Option.some "old" }

/-- Witness for C5: a missing row rejects any attempt unchanged, and the
correct current password rewrites the stored one. -/
theorem C5_change_password_witness :
    change_admin_password Option.none "x" "y" = (Option.none, false) ∧
    change_admin_password (Option.some exRowWithPassword) "old" "new"
      = (Option.some { exRowWithPassword with admin_password := Option.some "new" },
          true) :=
  ⟨(C5_change_password Option.none "x" "y").1 (by decide),
   (C5_change_password (Option.some exRowWithPassword) "old" "new").2
      exRowWithPassword rfl rfl⟩

/-- C10: is_password_set is true exactly when the stored admin_password
is non-null and non-empty — an empty string behaves like null (setup
mode) — and a missing settings row gives false, not an error. -/
theorem C10_is_password_set (row : Option Settings) :
    (is_password_set row = true ↔
      ∃ s p, row = Option.some s ∧ s.admin_password = Option.some p ∧ p ≠ "") ∧
    is_password_set Option.none = false := by
  constructor
  · cases row with
    | none => simp [is_password_set]
    | some s =>
        cases hp : s.admin_password with
        | none => simp [is_password_set, hp]
        | some p => simp [is_password_set, hp]
  · rfl
